import Mathlib

/-!
# ftpserver: start-up sequence and SIGTERM handling

A shallow embedding of `main.go`.  The program is almost entirely made of calls
into the operating system and into collaborating packages, so `main` is modelled
as a function from the command-line flags, an initial world and an environment
(the outcomes of every external call) to the final world together with the
ordered trace of external calls it made.  `signalHandler` is modelled as a
small-step machine over the control points of its `for` loop.
-/

namespace FtpServer

/-! ## External calls and their outcomes -/

/-- File contents, one natural number below 256 per byte (`[]byte`). -/
abbrev Bytes := List Nat

/-- The three outcomes of `os.Stat` that `main` distinguishes:
`err == nil`, `os.IsNotExist(err)`, and any other error. -/
inductive StatResult
  | ok
  | notExist
  | otherErr
  deriving DecidableEq, Repr

/-- The externally visible calls made by `main`, in program order. -/
inductive Event
  | stat (path : String)
  | logWarn (msg : String) (kv : List String)
  | writeFile (path : String) (data : Bytes) (perm : Nat)
  | newConfig (path : String)
  | logError (msg : String) (err : String)
  | newServer
  | newFtpServer
  | goSignalHandler
  | listenAndServe
  deriving DecidableEq, Repr

/-- Outcomes of the external calls of `main`, over a world `W` (the file system),
a configuration type `C` and a driver type `D`.  Errors are carried as strings;
`none` stands for a `nil` error. -/
structure Env (W C D : Type) where
  stat : W → String → StatResult
  writeFile : W → String → Bytes → Nat → W × Option String
  newConfig : W → String → Except String C
  newServer : W → C → Except String D
  listenAndServe : W → D → Option String

/-! ## `confFileContent` -/

/-- The raw string literal of `confFileContent` (main.go lines 107-123); the
braces of the document are written as the escapes `\x7b` and `\x7d`. -/
def confFileString : String :=
"\x7b
  \"version\": 1,
  \"accesses\": [
    \x7b
      \"user\": \"test\",
      \"pass\": \"test\",
      \"fs\": \"os\",
      \"params\": \x7b
        \"basePath\": \"/tmp\"
      \x7d
    \x7d
  ],
  \"passive_transfer_port_range\": \x7b
    \"start\": 2122,
    \"end\": 2130
  \x7d
\x7d"

/-- The conversion `[]byte(str)`.  Every character of the literal is ASCII
(see `confFileString_ascii`), so each character is exactly one byte whose value
is its code point. -/
def confFileContent : Bytes :=
  confFileString.toList.map Char.toNat

/-! ## `main` -/

/-- Lines 40-47 of `main`: the effective configuration path and the
`autoCreate` flag computed from the two command-line flags. -/
def resolveConf (confFile : String) (onlyConf : Bool) : String × Bool :=
  let autoCreate := onlyConf
  if confFile = "" then ("ftpserver.json", true) else (confFile, autoCreate)

/-- Lines 49-57 of `main`: when `autoCreate` is set and `os.Stat` reports that the
file does not exist, the default document is written; a failed write is only
logged. -/
def autoCreateStep {W C D : Type} (env : Env W C D) (confFile : String)
    (autoCreate : Bool) (w : W) : W × List Event :=
  if autoCreate then
    match env.stat w confFile with
    | StatResult.notExist =>
      match env.writeFile w confFile confFileContent 0o644 with
      | (w1, some _) =>
        (w1, [Event.stat confFile,
              Event.logWarn "No conf file, creating one" ["confFile", confFile],
              Event.writeFile confFile confFileContent 0o644,
              Event.logWarn "Couldn't create conf file" ["confFile", confFile]])
      | (w1, none) =>
        (w1, [Event.stat confFile,
              Event.logWarn "No conf file, creating one" ["confFile", confFile],
              Event.writeFile confFile confFileContent 0o644])
    | _ => (w, [Event.stat confFile])
  else (w, [])

/-- Lines 59-90 of `main`: load the configuration, build the driver, create the
server, start the signal handler and, unless `onlyConf` is set, serve. -/
def startStep {W C D : Type} (env : Env W C D) (confFile : String)
    (onlyConf : Bool) (w : W) : List Event :=
  match env.newConfig w confFile with
  | Except.error e => [Event.newConfig confFile, Event.logError "Can't load conf" e]
  | Except.ok conf =>
    match env.newServer w conf with
    | Except.error e =>
      [Event.newConfig confFile, Event.newServer,
       Event.logError "Could not load the driver" e]
    | Except.ok driver =>
      if onlyConf then
        [Event.newConfig confFile, Event.newServer, Event.newFtpServer,
         Event.goSignalHandler, Event.logWarn "Only creating conf" []]
      else
        match env.listenAndServe w driver with
        | some e =>
          [Event.newConfig confFile, Event.newServer, Event.newFtpServer,
           Event.goSignalHandler, Event.listenAndServe,
           Event.logError "Problem listening" e]
        | none =>
          [Event.newConfig confFile, Event.newServer, Event.newFtpServer,
           Event.goSignalHandler, Event.listenAndServe]

/-- The function `main`: the world left by its own file writes and the trace of
its external calls. -/
def main {W C D : Type} (env : Env W C D) (confFile : String) (onlyConf : Bool)
    (w : W) : W × List Event :=
  let rc := resolveConf confFile onlyConf
  let ac := autoCreateStep env rc.1 rc.2 w
  (ac.1, ac.2 ++ startStep env rc.1 onlyConf ac.1)

/-- The event is a file write. -/
def Event.isWrite : Event → Bool
  | Event.writeFile _ _ _ => true
  | _ => false

/-- The event is a call of `config.NewConfig`. -/
def Event.isNewConfig : Event → Bool
  | Event.newConfig _ => true
  | _ => false

/-- The event is a call of `server.NewServer`. -/
def Event.isNewServer : Event → Bool
  | Event.newServer => true
  | _ => false

/-- The event is an error-level log line. -/
def Event.isLogError : Event → Bool
  | Event.logError _ _ => true
  | _ => false

/-! ## The configuration loader

`config.NewConfig` belongs to the package `config`, whose source is not part of
`main.go`.  The loader below is modelled from the specification (sections 3, 4.1
and 6): read the file, parse it as JSON, decode it against the schema, and check
the data-model invariants. -/

/-- Modelled from the spec: the JSON document model used by the loader that
stands for the missing `config.NewConfig` ("JSON-shaped document", section 6).
Integer literals are kept apart from literals with a fraction or an exponent,
which the schema's `<int>` fields do not accept. -/
inductive Json
  | null
  | bool (b : Bool)
  | int (n : Int)
  | frac (mantissa : Int) (exponent : Int)
  | str (s : String)
  | arr (elems : List Json)
  | obj (members : List (String × Json))

/-- Skip JSON insignificant whitespace. -/
def skipWs : List Char → List Char
  | [] => []
  | c :: cs => if c = ' ' ∨ c = '\n' ∨ c = '\r' ∨ c = '\t' then skipWs cs else c :: cs

/-- Value of one hexadecimal digit. -/
def hexVal (c : Char) : Option Nat :=
  if '0' ≤ c ∧ c ≤ '9' then some (c.toNat - '0'.toNat)
  else if 'a' ≤ c ∧ c ≤ 'f' then some (c.toNat - 'a'.toNat + 10)
  else if 'A' ≤ c ∧ c ≤ 'F' then some (c.toNat - 'A'.toNat + 10)
  else none

/-- The body of a JSON string, after the opening quote: the decoded text and the
input left after the closing quote. -/
def parseString : List Char → List Char → Option (String × List Char)
  | [], _ => none
  | '"' :: rest, acc => some (String.mk acc.reverse, rest)
  | '\\' :: 'u' :: a :: b :: c :: d :: rest, acc =>
    match hexVal a, hexVal b, hexVal c, hexVal d with
    | some x, some y, some z, some w =>
      parseString rest (Char.ofNat (((x * 16 + y) * 16 + z) * 16 + w) :: acc)
    | _, _, _, _ => none
  | '\\' :: e :: rest, acc =>
    if e = '"' then parseString rest ('"' :: acc)
    else if e = '\\' then parseString rest ('\\' :: acc)
    else if e = '/' then parseString rest ('/' :: acc)
    else if e = 'b' then parseString rest (Char.ofNat 8 :: acc)
    else if e = 'f' then parseString rest (Char.ofNat 12 :: acc)
    else if e = 'n' then parseString rest ('\n' :: acc)
    else if e = 'r' then parseString rest ('\r' :: acc)
    else if e = 't' then parseString rest ('\t' :: acc)
    else none
  | c :: rest, acc =>
    if c.toNat < 32 ∨ c = '\\' then none else parseString rest (c :: acc)

/-- Split off the leading run of decimal digits. -/
def takeDigits : List Char → List Char → List Char × List Char
  | c :: cs, acc => if c.isDigit then takeDigits cs (c :: acc) else (acc.reverse, c :: cs)
  | [], acc => (acc.reverse, [])

/-- Value of a run of decimal digits. -/
def digitsVal (ds : List Char) : Nat :=
  ds.foldl (fun n c => 10 * n + (c.toNat - '0'.toNat)) 0


/-- Number literal: optional minus, digits, optional fraction, optional exponent. -/
def parseNumber (cs : List Char) : Option (Json × List Char) :=
  let (neg, cs1) := match cs with
    | '-' :: r => (true, r)
    | r => (false, r)
  match takeDigits cs1 [] with
  | ([], _) => none
  | (ds, rest) =>
    if ds.length > 1 ∧ ds.head? = some '0' then none else
    let sgn : Int := if neg then -1 else 1
    let (fr, rest1, hasFrac, okFrac) := match rest with
      | '.' :: r =>
        match takeDigits r [] with
        | ([], r1) => ([], r1, true, false)
        | (fs, r1) => (fs, r1, true, true)
      | r => ([], r, false, true)
    if !okFrac then none else
    let (ex, rest2, hasExp, okExp) : Int × List Char × Bool × Bool := match rest1 with
      | 'e' :: '-' :: r | 'E' :: '-' :: r =>
        match takeDigits r [] with
        | ([], r1) => (0, r1, true, false)
        | (es, r1) => (- (digitsVal es : Int), r1, true, true)
      | 'e' :: '+' :: r | 'E' :: '+' :: r =>
        match takeDigits r [] with
        | ([], r1) => (0, r1, true, false)
        | (es, r1) => ((digitsVal es : Int), r1, true, true)
      | 'e' :: r | 'E' :: r =>
        match takeDigits r [] with
        | ([], r1) => (0, r1, true, false)
        | (es, r1) => ((digitsVal es : Int), r1, true, true)
      | r => (0, r, false, true)
    if !okExp then none else
    if hasFrac || hasExp then
      some (Json.frac (sgn * (digitsVal (ds ++ fr) : Int)) (ex - (fr.length : Int)), rest2)
    else some (Json.int (sgn * (digitsVal ds : Int)), rest2)

mutual
/-- A JSON value; the fuel bounds the nesting and the number of members. -/
def parseValue : Nat → List Char → Option (Json × List Char)
  | 0, _ => none
  | fuel + 1, cs =>
    match skipWs cs with
    | '{' :: rest =>
      match skipWs rest with
      | '}' :: r => some (Json.obj [], r)
      | r => parseMembers fuel r []
    | '[' :: rest =>
      match skipWs rest with
      | ']' :: r => some (Json.arr [], r)
      | r => parseElems fuel r []
    | '"' :: rest =>
      match parseString rest [] with
      | some (s, r) => some (Json.str s, r)
      | none => none
    | 't' :: 'r' :: 'u' :: 'e' :: r => some (Json.bool true, r)
    | 'f' :: 'a' :: 'l' :: 's' :: 'e' :: r => some (Json.bool false, r)
    | 'n' :: 'u' :: 'l' :: 'l' :: r => some (Json.null, r)
    | r => parseNumber r
/-- The elements of a non-empty array, up to the closing bracket. -/
def parseElems : Nat → List Char → List Json → Option (Json × List Char)
  | 0, _, _ => none
  | fuel + 1, cs, acc =>
    match parseValue fuel cs with
    | none => none
    | some (v, r) =>
      match skipWs r with
      | ',' :: r1 => parseElems fuel r1 (v :: acc)
      | ']' :: r1 => some (Json.arr (v :: acc).reverse, r1)
      | _ => none
/-- The members of a non-empty object, up to the closing brace. -/
def parseMembers : Nat → List Char → List (String × Json) → Option (Json × List Char)
  | 0, _, _ => none
  | fuel + 1, cs, acc =>
    match skipWs cs with
    | '"' :: r =>
      match parseString r [] with
      | none => none
      | some (k, r1) =>
        match skipWs r1 with
        | ':' :: r2 =>
          match parseValue fuel r2 with
          | none => none
          | some (v, r3) =>
            match skipWs r3 with
            | ',' :: r4 => parseMembers fuel r4 ((k, v) :: acc)
            | '}' :: r4 => some (Json.obj ((k, v) :: acc).reverse, r4)
            | _ => none
        | _ => none
    | _ => none
end

/-- Modelled from the spec: a complete JSON document, with nothing but whitespace
after the value. -/
def parseJson (cs : List Char) : Option Json :=
  match parseValue (cs.length + 1) cs with
  | some (v, rest) => if skipWs rest = [] then some v else none
  | none => none


/-- Modelled from the spec: the bytes of a document as characters.  The model
covers ASCII documents; a byte of 128 or more makes the document unreadable. -/
def decodeAscii : Bytes → Option (List Char)
  | [] => some []
  | b :: bs =>
    if b < 128 then
      match decodeAscii bs with
      | some cs => some (Char.ofNat b :: cs)
      | none => none
    else none

/-- Modelled from the spec: one entry of `accesses` (section 3). -/
structure AccessEntry where
  user : String
  pass : String
  fs : String
  params : List (String × Json)

/-- Modelled from the spec: `passive_transfer_port_range` (section 3); the field
`stop` stands for `end`, which is a reserved word. -/
structure PortRange where
  start : Int
  stop : Int

/-- Modelled from the spec: the in-memory configuration `AccessConfig`
(section 3), the result type of the missing `config.NewConfig`. -/
structure AccessConfig where
  version : Int
  accesses : List AccessEntry
  passiveTransferPortRange : PortRange

/-- Modelled from the spec: the error taxonomy `ConfigError` (section 7). -/
inductive ConfigError
  | notFound
  | malformed
  | invalid
  deriving DecidableEq, Repr

/-- Value of a member of a JSON object; the last one wins when a key is repeated. -/
def Json.field (k : String) : Json → Option Json
  | Json.obj ms =>
    match ms.reverse.find? (fun m => m.1 == k) with
    | some m => some m.2
    | none => none
  | _ => none

/-- Modelled from the spec: decoding of one `accesses` entry against the schema
`{"user": <string>, "pass": <string>, "fs": <string>, "params": {<string>: <any>}}`. -/
def decodeEntry (j : Json) : Option AccessEntry :=
  match j.field "user", j.field "pass", j.field "fs", j.field "params" with
  | some (Json.str u), some (Json.str p), some (Json.str f), some (Json.obj ps) =>
    some { user := u, pass := p, fs := f, params := ps }
  | _, _, _, _ => none

/-- Decode every element of a list, failing when one of them fails. -/
def decodeEntries : List Json → Option (List AccessEntry)
  | [] => some []
  | j :: js =>
    match decodeEntry j, decodeEntries js with
    | some e, some es => some (e :: es)
    | _, _ => none

/-- Modelled from the spec: decoding of the whole document against the schema of
section 6. -/
def decodeConfig (j : Json) : Option AccessConfig :=
  match j.field "version", j.field "accesses", j.field "passive_transfer_port_range" with
  | some (Json.int v), some (Json.arr es), some pr =>
    match decodeEntries es, pr.field "start", pr.field "end" with
    | some accesses, some (Json.int s), some (Json.int e) =>
      some { version := v, accesses := accesses,
             passiveTransferPortRange := { start := s, stop := e } }
    | _, _, _ => none
  | _, _, _ => none

/-- Modelled from the spec: the supported schema versions.  The specification
names a single version, 1, that of the default document, which must load. -/
def supportedVersions : List Int := [1]

/-- Modelled from the spec: the checks whose failure is `ConfigError.Invalid`
(section 4.1): supported version, `0 < start <= end <= 65535`, unique users. -/
def validConfig (c : AccessConfig) : Bool :=
  decide (c.version ∈ supportedVersions)
    && decide (0 < c.passiveTransferPortRange.start)
    && decide (c.passiveTransferPortRange.start ≤ c.passiveTransferPortRange.stop)
    && decide (c.passiveTransferPortRange.stop ≤ 65535)
    && decide ((c.accesses.map AccessEntry.user).Nodup)

/-- An in-memory file system: the files that exist, with their contents. -/
abbrev FS := List (String × Bytes)

/-- Content of the file at a path, if it exists. -/
def FS.read (fs : FS) (path : String) : Option Bytes :=
  match fs.find? (fun f => f.1 == path) with
  | some f => some f.2
  | none => none

/-- A successful `ioutil.WriteFile`: the file is created or truncated and holds
exactly the data. -/
def FS.write (fs : FS) (path : String) (data : Bytes) : FS :=
  (path, data) :: fs.filter (fun f => !(f.1 == path))

/-- Modelled from the spec: the contract `load(path) -> AccessConfig | ConfigError`
of section 4.1, standing for the missing `config.NewConfig`. -/
def loadConfig (fs : FS) (path : String) : Except ConfigError AccessConfig :=
  match fs.read path with
  | none => Except.error ConfigError.notFound
  | some bytes =>
    match decodeAscii bytes with
    | none => Except.error ConfigError.malformed
    | some cs =>
      match parseJson cs with
      | none => Except.error ConfigError.malformed
      | some j =>
        match decodeConfig j with
        | none => Except.error ConfigError.malformed
        | some c => if validConfig c then Except.ok c else Except.error ConfigError.invalid

/-- The configuration described by the default document. -/
def defaultAccessConfig : AccessConfig :=
  { version := 1,
    accesses := [{ user := "test", pass := "test", fs := "os",
                   params := [("basePath", Json.str "/tmp")] }],
    passiveTransferPortRange := { start := 2122, stop := 2130 } }

/-- An environment over the in-memory file system: `os.Stat` succeeds exactly on
the files that exist, writes succeed, the configuration is loaded by
`loadConfig`, and the driver wraps the configuration. -/
def memEnv : Env FS AccessConfig AccessConfig where
  stat := fun fs p => if (fs.read p).isSome then StatResult.ok else StatResult.notExist
  writeFile := fun fs p d _ => (fs.write p d, none)
  newConfig := fun fs p =>
    match loadConfig fs p with
    | Except.ok c => Except.ok c
    | Except.error ConfigError.notFound => Except.error "not found"
    | Except.error ConfigError.malformed => Except.error "malformed"
    | Except.error ConfigError.invalid => Except.error "invalid"
  newServer := fun _ c => Except.ok c
  listenAndServe := fun _ _ => none

/-! ## `signalHandler` -/

/-- A signal number (`syscall.Signal`). -/
abbrev Signal := Nat

/-- The constant `syscall.SIGTERM`. -/
def SIGTERM : Signal := 15

/-- Control points of `signalHandler`: blocked on the receive of line 98, at the
test of line 100 with the received signal, at the call of line 101, and after
the function has returned. -/
inductive HandlerPC
  | recv
  | test (sig : Signal)
  | callStop
  | returned
  deriving DecidableEq, Repr

/-- State of `signalHandler`: its control point, the signals still to be delivered
on `ch`, the number of signals received so far, and, for every call of
`ftpServer.Stop()` made so far, the position in the delivery order of the signal
that caused it. -/
structure HandlerState where
  pc : HandlerPC
  ch : List Signal
  received : Nat
  stops : List Nat
  deriving DecidableEq, Repr

/-- The state in which the loop of `signalHandler` is entered, with the signals
that will be delivered. -/
def handlerInit (sigs : List Signal) : HandlerState :=
  { pc := HandlerPC.recv, ch := sigs, received := 0, stops := [] }

/-- One step of `signalHandler` (lines 97-103); `none` when no step is possible:
the receive is blocked on an empty channel, or the function has returned. -/
def signalHandlerStep (s : HandlerState) : Option HandlerState :=
  match s.pc with
  | HandlerPC.recv =>
    match s.ch with
    | [] => none
    | sig :: rest =>
      some { s with pc := HandlerPC.test sig, ch := rest, received := s.received + 1 }
  | HandlerPC.test sig =>
    if sig = SIGTERM then some { s with pc := HandlerPC.callStop }
    else some { s with pc := HandlerPC.recv }
  | HandlerPC.callStop =>
    some { s with pc := HandlerPC.recv, stops := s.stops ++ [s.received - 1] }
  | HandlerPC.returned => none

/-- Run `signalHandler` for at most the given number of steps. -/
def signalHandlerRun : Nat → HandlerState → HandlerState
  | 0, s => s
  | n + 1, s =>
    match signalHandlerStep s with
    | some s1 => signalHandlerRun n s1
    | none => s

/-- The function `signalHandler` on a finite sequence of delivered signals: three
steps at most are taken for each signal. -/
def signalHandler (sigs : List Signal) : HandlerState :=
  signalHandlerRun (3 * sigs.length) (handlerInit sigs)

/-- Positions, counted from `d`, of the SIGTERMs of a sequence of signals. -/
def termPositions (d : Nat) (sigs : List Signal) : List Nat :=
  ((sigs.enumFrom d).filter (fun p => decide (p.2 = SIGTERM))).map Prod.fst

/-! ## Shapes of the trace of `main` -/

theorem autoCreateStep_off {W C D : Type} (env : Env W C D) (p : String) (w : W) :
    autoCreateStep env p false w = (w, []) := by
  simp [autoCreateStep]

theorem autoCreateStep_present {W C D : Type} (env : Env W C D) (p : String) (w : W)
    (h : env.stat w p ≠ StatResult.notExist) :
    autoCreateStep env p true w = (w, [Event.stat p]) := by
  unfold autoCreateStep
  cases hs : env.stat w p <;> simp_all

theorem autoCreateStep_absent {W C D : Type} (env : Env W C D) (p : String) (w : W)
    (h : env.stat w p = StatResult.notExist) :
    autoCreateStep env p true w =
      ((env.writeFile w p confFileContent 0o644).1,
        [Event.stat p, Event.logWarn "No conf file, creating one" ["confFile", p],
          Event.writeFile p confFileContent 0o644] ++
        (match (env.writeFile w p confFileContent 0o644).2 with
          | some _ => [Event.logWarn "Couldn't create conf file" ["confFile", p]]
          | none => [])) := by
  unfold autoCreateStep
  simp only [h, if_true]
  rcases hw : env.writeFile w p confFileContent 0o644 with ⟨w1, _ | e⟩ <;> simp

theorem autoCreateStep_no_start {W C D : Type} (env : Env W C D) (p : String) (a : Bool)
    (w : W) (e : Event) (he : e ∈ (autoCreateStep env p a w).2) :
    e.isNewConfig = false ∧ e.isNewServer = false ∧ e.isLogError = false ∧
      e ≠ Event.listenAndServe := by
  cases a
  · simp [autoCreateStep_off] at he
  · by_cases h : env.stat w p = StatResult.notExist
    · rw [autoCreateStep_absent env p w h] at he
      cases hw : (env.writeFile w p confFileContent 0o644).2 <;>
        simp [hw] at he <;> rcases he with rfl | rfl | rfl | rfl <;>
        simp [Event.isNewConfig, Event.isNewServer, Event.isLogError]
    · rw [autoCreateStep_present env p w h] at he
      simp at he
      subst he
      simp [Event.isNewConfig, Event.isNewServer, Event.isLogError]

theorem startStep_no_write {W C D : Type} (env : Env W C D) (p : String) (o : Bool)
    (w : W) (e : Event) (he : e ∈ startStep env p o w) :
    e.isWrite = false ∧ ∀ q, e ≠ Event.stat q := by
  unfold startStep at he
  split at he
  · simp at he
    rcases he with rfl | rfl <;> simp [Event.isWrite]
  · split at he
    · simp at he
      rcases he with rfl | rfl | rfl <;> simp [Event.isWrite]
    · split at he
      · simp at he
        rcases he with rfl | rfl | rfl | rfl | rfl <;> simp [Event.isWrite]
      · split at he <;> simp at he
        · rcases he with rfl | rfl | rfl | rfl | rfl | rfl <;> simp [Event.isWrite]
        · rcases he with rfl | rfl | rfl | rfl | rfl <;> simp [Event.isWrite]

theorem startStep_head {W C D : Type} (env : Env W C D) (p : String) (o : Bool) (w : W) :
    ∃ post, startStep env p o w = Event.newConfig p :: post ∧
      ∀ e ∈ post, e.isNewConfig = false ∧ e.isWrite = false := by
  unfold startStep
  split
  · exact ⟨_, rfl, by simp [Event.isNewConfig, Event.isWrite]⟩
  · split
    · exact ⟨_, rfl, by simp [Event.isNewConfig, Event.isWrite]⟩
    · split
      · exact ⟨_, rfl, by simp [Event.isNewConfig, Event.isWrite]⟩
      · split <;> exact ⟨_, rfl, by simp [Event.isNewConfig, Event.isWrite]⟩

/-! ## Claims about `main` -/

/-- C1: in every run of `main` with `--conf-only` set, whatever the `--conf` value,
the file system and the outcomes of `config.NewConfig` and `server.NewServer`,
`ftpServer.ListenAndServe` is never called. -/
theorem main_confOnly_never_serves {W C D : Type} (env : Env W C D) (confFile : String)
    (w : W) : Event.listenAndServe ∉ (main env confFile true w).2 := by
  intro hmem
  simp only [main, List.mem_append] at hmem
  rcases hmem with h | h
  · exact (autoCreateStep_no_start env _ _ w _ h).2.2.2 rfl
  · unfold startStep at h
    split at h
    · simp at h
    · split at h <;> simp at h

/-- C2: when `config.NewConfig` fails, or succeeds and `server.NewServer` fails,
`main` ends on an error log line, never calls `ftpServer.ListenAndServe`, and
calls `config.NewConfig` and `server.NewServer` at most once each. -/
theorem main_startup_failure {W C D : Type} (env : Env W C D) (confFile : String)
    (onlyConf : Bool) (w : W)
    (h : (∃ e, env.newConfig (main env confFile onlyConf w).1
              (resolveConf confFile onlyConf).1 = Except.error e) ∨
         (∃ c e, env.newConfig (main env confFile onlyConf w).1
              (resolveConf confFile onlyConf).1 = Except.ok c ∧
            env.newServer (main env confFile onlyConf w).1 c = Except.error e)) :
    Event.listenAndServe ∉ (main env confFile onlyConf w).2 ∧
    (∃ m e, (main env confFile onlyConf w).2.getLast? = some (Event.logError m e)) ∧
    ((main env confFile onlyConf w).2.filter Event.isLogError).length = 1 ∧
    ((main env confFile onlyConf w).2.filter Event.isNewConfig).length ≤ 1 ∧
    ((main env confFile onlyConf w).2.filter Event.isNewServer).length ≤ 1 := by
  have hpre : ∀ e ∈ (autoCreateStep env (resolveConf confFile onlyConf).1
      (resolveConf confFile onlyConf).2 w).2,
      e.isNewConfig = false ∧ e.isNewServer = false ∧ e.isLogError = false ∧
        e ≠ Event.listenAndServe :=
    fun e he => autoCreateStep_no_start env _ _ w e he
  have hf1 : (autoCreateStep env (resolveConf confFile onlyConf).1
      (resolveConf confFile onlyConf).2 w).2.filter Event.isLogError = [] :=
    List.filter_eq_nil_iff.mpr (fun e he => by simp [(hpre e he).2.2.1])
  have hf2 : (autoCreateStep env (resolveConf confFile onlyConf).1
      (resolveConf confFile onlyConf).2 w).2.filter Event.isNewConfig = [] :=
    List.filter_eq_nil_iff.mpr (fun e he => by simp [(hpre e he).1])
  have hf3 : (autoCreateStep env (resolveConf confFile onlyConf).1
      (resolveConf confFile onlyConf).2 w).2.filter Event.isNewServer = [] :=
    List.filter_eq_nil_iff.mpr (fun e he => by simp [(hpre e he).2.1])
  have hnot : Event.listenAndServe ∉ (autoCreateStep env (resolveConf confFile onlyConf).1
      (resolveConf confFile onlyConf).2 w).2 := fun hm => (hpre _ hm).2.2.2 rfl
  simp only [main] at h ⊢
  rcases h with ⟨e, he⟩ | ⟨c, e, hc, he⟩
  · have hs : startStep env (resolveConf confFile onlyConf).1 onlyConf
        (autoCreateStep env (resolveConf confFile onlyConf).1
          (resolveConf confFile onlyConf).2 w).1 =
        [Event.newConfig (resolveConf confFile onlyConf).1,
         Event.logError "Can't load conf" e] := by
      simp [startStep, he]
    rw [hs]
    refine ⟨?_, ⟨"Can't load conf", e, ?_⟩, ?_, ?_, ?_⟩
    · simp [hnot]
    · simp [List.getLast?_append]
    · simp [List.filter_append, hf1, List.filter, Event.isLogError]
    · simp [List.filter_append, hf2, List.filter, Event.isNewConfig]
    · simp [List.filter_append, hf3, List.filter, Event.isNewServer]
  · have hs : startStep env (resolveConf confFile onlyConf).1 onlyConf
        (autoCreateStep env (resolveConf confFile onlyConf).1
          (resolveConf confFile onlyConf).2 w).1 =
        [Event.newConfig (resolveConf confFile onlyConf).1, Event.newServer,
         Event.logError "Could not load the driver" e] := by
      simp [startStep, hc, he]
    rw [hs]
    refine ⟨?_, ⟨"Could not load the driver", e, ?_⟩, ?_, ?_, ?_⟩
    · simp [hnot]
    · simp [List.getLast?_append]
    · simp [List.filter_append, hf1, List.filter, Event.isLogError]
    · simp [List.filter_append, hf2, List.filter, Event.isNewConfig]
    · simp [List.filter_append, hf3, List.filter, Event.isNewServer]

/-- C4: when auto-creation is enabled and `os.Stat` on the effective path reports
that the file does not exist, the trace of `main` holds exactly one file write,
of the bytes of `confFileContent()` to that path, and exactly one call of
`config.NewConfig`, on that path and after the write, whether or not the write
succeeded. -/
theorem main_autoCreate_writes_default {W C D : Type} (env : Env W C D)
    (confFile : String) (onlyConf : Bool) (w : W)
    (hauto : (resolveConf confFile onlyConf).2 = true)
    (hstat : env.stat w (resolveConf confFile onlyConf).1 = StatResult.notExist) :
    ∃ pre mid post,
      (main env confFile onlyConf w).2 =
        pre ++ [Event.writeFile (resolveConf confFile onlyConf).1 confFileContent 0o644]
          ++ mid ++ [Event.newConfig (resolveConf confFile onlyConf).1] ++ post ∧
      ∀ e ∈ pre ++ mid ++ post, e.isWrite = false ∧ e.isNewConfig = false := by
  obtain ⟨post, hpost, hclean⟩ := startStep_head env (resolveConf confFile onlyConf).1
    onlyConf (main env confFile onlyConf w).1
  simp only [main] at hpost ⊢
  rw [hpost, hauto, autoCreateStep_absent env _ w hstat]
  refine ⟨[Event.stat (resolveConf confFile onlyConf).1,
      Event.logWarn "No conf file, creating one" ["confFile", (resolveConf confFile onlyConf).1]],
    (match (env.writeFile w (resolveConf confFile onlyConf).1 confFileContent 0o644).2 with
      | some _ => [Event.logWarn "Couldn't create conf file"
          ["confFile", (resolveConf confFile onlyConf).1]]
      | none => []), post, ?_, ?_⟩
  · simp
  · intro e he
    simp only [List.mem_append] at he
    rcases he with (he | he) | he
    · simp at he
      rcases he with rfl | rfl <;> simp [Event.isWrite, Event.isNewConfig]
    · cases hw : (env.writeFile w (resolveConf confFile onlyConf).1 confFileContent 0o644).2 <;>
        simp [hw] at he
      subst he
      simp [Event.isWrite, Event.isNewConfig]
    · exact ⟨(hclean e he).2, (hclean e he).1⟩

/-- C5: the effective configuration path is "ftpserver.json" when `--conf` is empty
and the given path otherwise, and auto-creation is enabled exactly when `--conf`
is empty or `--conf-only` is set; in every run of `main` the single call of
`config.NewConfig` is on that path and `os.Stat` is called, on that path, exactly
when auto-creation is enabled. -/
theorem resolveConf_effective {W C D : Type} (env : Env W C D) (confFile : String)
    (onlyConf : Bool) (w : W) :
    (resolveConf confFile onlyConf).1 =
        (if confFile = "" then "ftpserver.json" else confFile) ∧
    ((resolveConf confFile onlyConf).2 = true ↔ (confFile = "" ∨ onlyConf = true)) ∧
    (∀ q, Event.newConfig q ∈ (main env confFile onlyConf w).2 ↔
        q = (if confFile = "" then "ftpserver.json" else confFile)) ∧
    (∀ q, Event.stat q ∈ (main env confFile onlyConf w).2 ↔
        ((confFile = "" ∨ onlyConf = true) ∧
          q = (if confFile = "" then "ftpserver.json" else confFile))) := by
  have h1 : (resolveConf confFile onlyConf).1 =
      (if confFile = "" then "ftpserver.json" else confFile) := by
    unfold resolveConf
    split <;> rfl
  have h2 : ((resolveConf confFile onlyConf).2 = true ↔ (confFile = "" ∨ onlyConf = true)) := by
    unfold resolveConf
    split <;> simp_all
  refine ⟨h1, h2, ?_, ?_⟩
  · intro q
    obtain ⟨post, hpost, hclean⟩ := startStep_head env (resolveConf confFile onlyConf).1
      onlyConf (main env confFile onlyConf w).1
    simp only [main] at hpost ⊢
    rw [hpost, ← h1]
    constructor
    · intro hq
      simp only [List.mem_append, List.mem_cons] at hq
      rcases hq with hq | hq | hq
      · have := (autoCreateStep_no_start env _ _ w _ hq).1
        simp [Event.isNewConfig] at this
      · exact Event.newConfig.inj hq
      · have := (hclean _ hq).1
        simp [Event.isNewConfig] at this
    · intro hq
      subst hq
      simp
  · intro q
    simp only [main, List.mem_append]
    rw [← h1, ← h2]
    constructor
    · intro hq
      rcases hq with hq | hq
      · cases ha : (resolveConf confFile onlyConf).2
        · rw [ha, autoCreateStep_off] at hq
          simp at hq
        · rw [ha] at hq
          refine ⟨rfl, ?_⟩
          by_cases hs : env.stat w (resolveConf confFile onlyConf).1 = StatResult.notExist
          · rw [autoCreateStep_absent env _ w hs] at hq
            cases hw : (env.writeFile w (resolveConf confFile onlyConf).1
              confFileContent 0o644).2 <;> simp [hw] at hq <;> exact hq
          · rw [autoCreateStep_present env _ w hs] at hq
            simpa using hq
      · exact absurd rfl ((startStep_no_write env _ _ _ _ hq).2 q)
    · rintro ⟨ha, rfl⟩
      left
      rw [ha]
      by_cases hs : env.stat w (resolveConf confFile onlyConf).1 = StatResult.notExist
      · rw [autoCreateStep_absent env _ w hs]
        simp
      · rw [autoCreateStep_present env _ w hs]
        simp

/-- C9: when auto-creation is disabled (a non-empty `--conf` without
`--conf-only`), or `os.Stat` on the effective path succeeds, or it fails with an
error other than not-exist, `main` performs no file write and leaves the world
as it found it. -/
theorem main_no_write {W C D : Type} (env : Env W C D) (confFile : String)
    (onlyConf : Bool) (w : W)
    (h : (confFile ≠ "" ∧ onlyConf = false) ∨
         env.stat w (resolveConf confFile onlyConf).1 = StatResult.ok ∨
         env.stat w (resolveConf confFile onlyConf).1 = StatResult.otherErr) :
    (∀ e ∈ (main env confFile onlyConf w).2, e.isWrite = false) ∧
    (main env confFile onlyConf w).1 = w := by
  have hac : autoCreateStep env (resolveConf confFile onlyConf).1
      (resolveConf confFile onlyConf).2 w = (w, []) ∨
      autoCreateStep env (resolveConf confFile onlyConf).1
      (resolveConf confFile onlyConf).2 w = (w, [Event.stat (resolveConf confFile onlyConf).1]) := by
    cases ha : (resolveConf confFile onlyConf).2
    · exact Or.inl (autoCreateStep_off env _ w)
    · right
      apply autoCreateStep_present
      rcases h with ⟨hc, ho⟩ | hs | hs
      · simp [resolveConf, hc, ho] at ha
      · simp [hs]
      · simp [hs]
  simp only [main]
  rcases hac with hac | hac <;> rw [hac] <;> refine ⟨?_, rfl⟩ <;> intro e he
  · simp only [List.nil_append] at he
    exact (startStep_no_write env _ _ _ _ he).1
  · simp only [List.singleton_append, List.mem_cons] at he
    rcases he with rfl | he
    · rfl
    · exact (startStep_no_write env _ _ _ _ he).1

/-! ## `signalHandler` -/

theorem termPositions_nil (d : Nat) : termPositions d [] = [] := rfl

theorem termPositions_cons_term (d : Nat) (rest : List Signal) :
    termPositions d (SIGTERM :: rest) = d :: termPositions (d + 1) rest := by
  simp [termPositions]

theorem termPositions_cons_other (d : Nat) (sig : Signal) (rest : List Signal)
    (h : sig ≠ SIGTERM) :
    termPositions d (sig :: rest) = termPositions (d + 1) rest := by
  simp [termPositions, h]

theorem mem_termPositions (d i : Nat) (sigs : List Signal) :
    i ∈ termPositions d sigs ↔ d ≤ i ∧ sigs[i - d]? = some SIGTERM := by
  unfold termPositions
  rw [List.mem_map]
  constructor
  · rintro ⟨⟨j, x⟩, hx, hj⟩
    rw [List.mem_filter] at hx
    simp only at hj
    subst hj
    have hx2 : x = SIGTERM := by simpa using hx.2
    subst hx2
    exact List.mk_mem_enumFrom_iff_le_and_getElem?_sub.mp hx.1
  · rintro ⟨hd, hi⟩
    refine ⟨(i, SIGTERM), ?_, rfl⟩
    rw [List.mem_filter]
    exact ⟨List.mk_mem_enumFrom_iff_le_and_getElem?_sub.mpr ⟨hd, hi⟩, by simp⟩

theorem termPositions_length (d : Nat) (sigs : List Signal) :
    (termPositions d sigs).length = sigs.count SIGTERM := by
  induction sigs generalizing d with
  | nil => rfl
  | cons sig rest ih =>
    by_cases h : sig = SIGTERM
    · subst h
      simp [termPositions_cons_term, ih]
    · rw [termPositions_cons_other d sig rest h, ih, List.count_cons_of_ne (Ne.symm h)]

theorem termPositions_increasing (d : Nat) (sigs : List Signal) :
    (termPositions d sigs).Pairwise (fun i j => i < j) := by
  induction sigs generalizing d with
  | nil => simp [termPositions_nil]
  | cons sig rest ih =>
    by_cases h : sig = SIGTERM
    · subst h
      rw [termPositions_cons_term, List.pairwise_cons]
      refine ⟨fun j hj => ?_, ih (d + 1)⟩
      have := ((mem_termPositions (d + 1) j rest).mp hj).1
      omega
    · rw [termPositions_cons_other d sig rest h]
      exact ih (d + 1)

/-- From the receive of line 98, enough steps consume every pending signal, call
`Stop` at the positions of the SIGTERMs and end blocked on the empty channel. -/
theorem signalHandlerRun_recv (sigs : List Signal) (d : Nat) (st : List Nat) (n : Nat)
    (hn : 3 * sigs.length ≤ n) :
    signalHandlerRun n { pc := HandlerPC.recv, ch := sigs, received := d, stops := st } =
      { pc := HandlerPC.recv, ch := [], received := d + sigs.length,
        stops := st ++ termPositions d sigs } := by
  induction sigs generalizing d st n with
  | nil =>
    cases n <;> simp [signalHandlerRun, signalHandlerStep, termPositions_nil]
  | cons sig rest ih =>
    simp only [List.length_cons] at hn
    obtain ⟨m, rfl⟩ : ∃ m, n = m + 3 := ⟨n - 3, by omega⟩
    by_cases h : sig = SIGTERM
    · subst h
      have := ih (d + 1) (st ++ [d]) m (by omega)
      simp only [signalHandlerRun, signalHandlerStep, if_true, Nat.add_sub_cancel]
      rw [this, termPositions_cons_term]
      simp [Nat.add_comm, Nat.add_left_comm]
    · have := ih (d + 1) st (m + 1) (by omega)
      simp only [signalHandlerRun, signalHandlerStep, if_neg h] at this ⊢
      rw [this, termPositions_cons_other d sig rest h]
      simp [Nat.add_comm, Nat.add_left_comm]

/-- The control point after the return of the function is never reached, and a
state without a next step is blocked on the receive with an empty channel. -/
theorem signalHandlerRun_invariant (n : Nat) (s : HandlerState)
    (hs : s.pc ≠ HandlerPC.returned) :
    (signalHandlerRun n s).pc ≠ HandlerPC.returned := by
  induction n generalizing s with
  | zero => exact hs
  | succ n ih =>
    simp only [signalHandlerRun]
    cases hstep : signalHandlerStep s with
    | none => exact hs
    | some s1 =>
      apply ih
      unfold signalHandlerStep at hstep
      split at hstep
      · split at hstep
        · simp at hstep
        · simp only [Option.some.injEq] at hstep
          subst hstep
          simp
      · split at hstep <;> simp only [Option.some.injEq] at hstep <;> subst hstep <;> simp
      · simp only [Option.some.injEq] at hstep
        subst hstep
        simp
      · simp at hstep

theorem signalHandlerStep_none_iff (s : HandlerState) (hs : s.pc ≠ HandlerPC.returned) :
    signalHandlerStep s = none ↔ s.pc = HandlerPC.recv ∧ s.ch = [] := by
  unfold signalHandlerStep
  rcases s with ⟨pc, ch, r, st⟩
  cases pc with
  | recv => cases ch <;> simp
  | test sig => by_cases h : sig = SIGTERM <;> simp [h]
  | callStop => simp
  | returned => exact absurd rfl hs

/-- C7: on every finite sequence of delivered signals, `signalHandler` calls
`ftpServer.Stop()` exactly once for each SIGTERM, in delivery order, and never
for another signal: the positions of the signals that caused a call are strictly
increasing, they are exactly the positions of the SIGTERMs, their number is the
number of SIGTERMs, and no further call is made however long the handler runs. -/
theorem signalHandler_stops (sigs : List Signal) (k : Nat) :
    (∀ i, i ∈ (signalHandler sigs).stops ↔ sigs[i]? = some SIGTERM) ∧
    (signalHandler sigs).stops.Pairwise (fun i j => i < j) ∧
    (signalHandler sigs).stops.length = sigs.count SIGTERM ∧
    (signalHandler sigs).received = sigs.length ∧
    signalHandlerRun (3 * sigs.length + k) (handlerInit sigs) = signalHandler sigs := by
  have h0 := signalHandlerRun_recv sigs 0 [] (3 * sigs.length) (Nat.le_refl _)
  have hk := signalHandlerRun_recv sigs 0 [] (3 * sigs.length + k) (Nat.le_add_right _ _)
  have hs : signalHandler sigs =
      { pc := HandlerPC.recv, ch := [], received := 0 + sigs.length,
        stops := [] ++ termPositions 0 sigs } := h0
  refine ⟨fun i => ?_, ?_, ?_, ?_, ?_⟩
  · rw [hs]
    simp [mem_termPositions]
  · rw [hs]
    simpa using termPositions_increasing 0 sigs
  · rw [hs]
    simpa using termPositions_length 0 sigs
  · rw [hs]
    simp
  · rw [hs]
    exact hk

/-- C10: `signalHandler` never returns: no state reached after any number of steps
on any sequence of signals is the returned one, a reached state without a next
step is blocked on the receive with an empty channel, after the whole sequence
is processed the handler is blocked on the receive again, and the delivery of
one more signal lets it step again. -/
theorem signalHandler_never_returns (sigs : List Signal) (n k : Nat) (sig : Signal) :
    (signalHandlerRun n (handlerInit sigs)).pc ≠ HandlerPC.returned ∧
    (signalHandlerStep (signalHandlerRun n (handlerInit sigs)) = none ↔
      (signalHandlerRun n (handlerInit sigs)).pc = HandlerPC.recv ∧
        (signalHandlerRun n (handlerInit sigs)).ch = []) ∧
    (signalHandlerRun (3 * sigs.length + k) (handlerInit sigs)).pc = HandlerPC.recv ∧
    (signalHandlerRun (3 * sigs.length + k) (handlerInit sigs)).ch = [] ∧
    (signalHandlerStep
      { signalHandlerRun (3 * sigs.length + k) (handlerInit sigs) with ch := [sig] }).isSome
      = true := by
  have hinv : (signalHandlerRun n (handlerInit sigs)).pc ≠ HandlerPC.returned :=
    signalHandlerRun_invariant n (handlerInit sigs) (by simp [handlerInit])
  have hk : signalHandlerRun (3 * sigs.length + k) (handlerInit sigs) = _ :=
    signalHandlerRun_recv sigs 0 [] (3 * sigs.length + k) (Nat.le_add_right _ _)
  refine ⟨hinv, signalHandlerStep_none_iff _ hinv, ?_, ?_, ?_⟩
  · rw [hk]
  · rw [hk]
  · rw [hk]
    simp [signalHandlerStep]

/-! ## The default document -/

set_option maxRecDepth 100000

theorem FS.read_write (fs : FS) (path : String) (data : Bytes) :
    (fs.write path data).read path = some data := by
  simp [FS.read, FS.write]

theorem confFileString_ascii : ∀ b ∈ confFileContent, b < 128 := by
  decide

theorem confFileContent_load :
    ∃ cs j, decodeAscii confFileContent = some cs ∧ parseJson cs = some j ∧
      decodeConfig j = some defaultAccessConfig ∧ validConfig defaultAccessConfig = true :=
  ⟨_, _, rfl, rfl, rfl, rfl⟩

/-- C6: the bytes of `confFileContent()` are ASCII and parse as a JSON document of
the configuration schema; writing them to any path of any file system and
loading that path succeeds with the configuration of version 1, the single
access (user "test", pass "test", fs "os", params basePath "/tmp") and the port
range 2122-2130, which satisfies the invariants of the data model. -/
theorem confFileContent_roundtrip (fs : FS) (path : String) :
    (∃ cs j, decodeAscii confFileContent = some cs ∧ parseJson cs = some j ∧
      decodeConfig j = some defaultAccessConfig) ∧
    loadConfig (fs.write path confFileContent) path = Except.ok defaultAccessConfig ∧
    defaultAccessConfig.version = 1 ∧
    defaultAccessConfig.accesses.map
        (fun e => (e.user, e.pass, e.fs, e.params.map Prod.fst)) =
      [("test", "test", "os", ["basePath"])] ∧
    (defaultAccessConfig.accesses.map
        (fun e => (e.params.map Prod.snd).all
          (fun v => match v with
            | Json.str s => s == "/tmp"
            | _ => false))) = [true] ∧
    defaultAccessConfig.passiveTransferPortRange.start = 2122 ∧
    defaultAccessConfig.passiveTransferPortRange.stop = 2130 ∧
    0 < defaultAccessConfig.passiveTransferPortRange.start ∧
    defaultAccessConfig.passiveTransferPortRange.start ≤
      defaultAccessConfig.passiveTransferPortRange.stop ∧
    defaultAccessConfig.passiveTransferPortRange.stop ≤ 65535 ∧
    defaultAccessConfig.accesses ≠ [] ∧
    (∀ e ∈ defaultAccessConfig.accesses, e.user ≠ "") ∧
    (defaultAccessConfig.accesses.map AccessEntry.user).Nodup := by
  obtain ⟨cs, j, h1, h2, h3, h4⟩ := confFileContent_load
  refine ⟨⟨cs, j, h1, h2, h3⟩, ?_, rfl, rfl, rfl, rfl, rfl, by decide, by decide, by decide,
    by simp [defaultAccessConfig], by simp [defaultAccessConfig],
    by simp [defaultAccessConfig]⟩
  simp [loadConfig, FS.read_write, h1, h2, h3, h4]

/-! ## Instances of the claims with hypotheses -/

theorem main_startup_failure_witness :
    memEnv.newConfig (main memEnv "missing.json" false []).1
        (resolveConf "missing.json" false).1 = Except.error "not found" ∧
    (main memEnv "missing.json" false []).2 =
      [Event.newConfig "missing.json", Event.logError "Can't load conf" "not found"] ∧
    Event.listenAndServe ∉ (main memEnv "missing.json" false []).2 :=
  ⟨rfl, rfl,
    (main_startup_failure memEnv "missing.json" false [] (Or.inl ⟨"not found", rfl⟩)).1⟩

theorem main_autoCreate_writes_default_witness :
    (resolveConf "" false).2 = true ∧
    memEnv.stat [] (resolveConf "" false).1 = StatResult.notExist ∧
    ∃ pre mid post,
      (main memEnv "" false []).2 =
        pre ++ [Event.writeFile (resolveConf "" false).1 confFileContent 0o644]
          ++ mid ++ [Event.newConfig (resolveConf "" false).1] ++ post ∧
      ∀ e ∈ pre ++ mid ++ post, e.isWrite = false ∧ e.isNewConfig = false :=
  ⟨rfl, rfl, main_autoCreate_writes_default memEnv "" false [] rfl rfl⟩

theorem main_no_write_witness :
    ("conf.json" ≠ "" ∧ false = false) ∧
    (∀ e ∈ (main memEnv "conf.json" false [("conf.json", [])]).2, e.isWrite = false) ∧
    (main memEnv "conf.json" false [("conf.json", [])]).1 = [("conf.json", [])] :=
  ⟨⟨by decide, rfl⟩,
    main_no_write memEnv "conf.json" false [("conf.json", [])] (Or.inl ⟨by decide, rfl⟩)⟩

end FtpServer
